import Mathlib

/-!
Verification development for the AI_Trip_Planner repository.

The Python source is shallowly embedded: strings are `List Char` processed by
executable scanners that mirror the regular-expression substitutions of the
source, numeric amounts are rationals, and the Streamlit session state is an
explicit record threaded through the functions that read or write it.
-/

namespace TripPlanner

/-! ## Character and string helpers -/

/-- ASCII lower-casing, as `str.lower()` acts on the ASCII letters that all
keywords of the classifier consist of (from `determine_query_type`). -/
def lowerChar (c : Char) : Char :=
  if 'A' ≤ c ∧ c ≤ 'Z' then Char.ofNat (c.toNat + 32) else c

def pyLower (l : List Char) : List Char := l.map lowerChar

/-- Whitespace class of Python regular expressions (`\s`) and `str.strip()`. -/
def isSpaceChar (c : Char) : Bool :=
  c = ' ' || c = '\t' || c = '\n' || c = '\r' || c = Char.ofNat 11 || c = Char.ofNat 12

/-- Substring test, embedding the Python `needle in haystack` operator. -/
def containsSub (needle : List Char) : List Char → Bool
  | [] => needle.isEmpty
  | c :: t => needle.isPrefixOf (c :: t) || containsSub needle t

/-- `span` over a Bool predicate: longest prefix satisfying `p`, and the rest. -/
def spanP (p : Char → Bool) : List Char → List Char × List Char
  | [] => ([], [])
  | c :: t =>
    if p c then
      let s := spanP p t
      (c :: s.1, s.2)
    else ([], c :: t)

/-- Number of positions of `hay` at which `needle` occurs (occurrences may
overlap). -/
def countSub (needle : List Char) : List Char → Nat
  | [] => 0
  | c :: t => (if needle.isPrefixOf (c :: t) then 1 else 0) + countSub needle t

/-! ## Query Classifier (`determine_query_type` in src/main.py) -/

def hotelKeywords : List String := ["hotel", "accommodation", "stay", "lodge"]

def costKeywords : List String := ["cost", "budget", "price", "expense", "money"]

def weatherKeywords : List String := ["weather", "climate", "temperature", "season"]

def alternativeKeywords : List String := ["alternative", "option", "different", "other"]

/-- `any(keyword in question_lower for keyword in kws)`. -/
def containsAnyKeyword (l : List Char) (kws : List String) : Bool :=
  kws.any (fun k => containsSub k.data l)

/-- The five query categories of the classifier. -/
inductive Category where
  | hotels
  | cost
  | weather
  | alternatives
  | complete
deriving DecidableEq

/-- The literal string the source returns for each category. -/
def categoryLabel : Category → String
  | .hotels => "hotels"
  | .cost => "cost_breakdown"
  | .weather => "weather"
  | .alternatives => "alternatives"
  | .complete => "complete_itinerary"

/-- The classifier as a `Category`-valued function: lower-case the question and
test the four keyword sets in the fixed priority order of the source. -/
def classify (question : String) : Category :=
  let ql := pyLower question.data
  if containsAnyKeyword ql hotelKeywords then .hotels
  else if containsAnyKeyword ql costKeywords then .cost
  else if containsAnyKeyword ql weatherKeywords then .weather
  else if containsAnyKeyword ql alternativeKeywords then .alternatives
  else .complete

/-- `determine_query_type` from src/main.py, returning the literal strings of
the source. -/
def determine_query_type (question : String) : String :=
  let ql := pyLower question.data
  if containsAnyKeyword ql hotelKeywords then "hotels"
  else if containsAnyKeyword ql costKeywords then "cost_breakdown"
  else if containsAnyKeyword ql weatherKeywords then "weather"
  else if containsAnyKeyword ql alternativeKeywords then "alternatives"
  else "complete_itinerary"

/-! ## Currency Service (`get_exchange_rates`, `convert_price` in
src/streamlit_app.py) -/

/-- Exchange-rate table: Python dict from currency code to rate. -/
abbrev RateTable := List (String × ℚ)

/-- The hardcoded fallback table of `get_exchange_rates`. -/
def fallbackRates : RateTable :=
  [("USD", 1), ("INR", 83), ("EUR", 85/100), ("GBP", 73/100),
   ("AUD", 135/100), ("CAD", 125/100), ("JPY", 110)]

def lookupRate (t : RateTable) (code : String) : Option ℚ :=
  (t.find? (fun p => p.1 == code)).map Prod.snd

/-- Python dict assignment `t[code] = v`: update in place or append. -/
def setRate (t : RateTable) (code : String) (v : ℚ) : RateTable :=
  if t.any (fun p => p.1 == code) then
    t.map (fun p => if p.1 == code then (code, v) else p)
  else t ++ [(code, v)]

/-- The part of `st.session_state` that `get_exchange_rates` reads and writes.
The empty table is the falsy `{}` installed by `init_session_state`. -/
structure Session where
  exchange_rates : RateTable
deriving DecidableEq

/-- One call to `requests.get(EXCHANGE_API_URL)` as seen by the function:
either the call raises (network error), or it returns a status code with a
body; `body = none` models a body on which `response.json()` raises. -/
inductive FetchResult where
  | raises
  | status (code : Nat) (body : Option RateTable)
deriving DecidableEq

/-- Result of one call to `get_exchange_rates`: the returned table, the
session state afterwards, and whether the remote source was contacted. -/
structure RatesCall where
  table : RateTable
  state : Session
  fetched : Bool
deriving DecidableEq

/-- `get_exchange_rates` from src/streamlit_app.py.  If the cache is empty it
contacts the remote source: a 200 response has its `rates` field cached with
`USD` forced to `1.0`; an exception anywhere in the `try` block (network
failure, body that fails to parse) lands in the `except` branch which returns
the fallback table without caching it; any other status code falls through to
`return st.session_state.exchange_rates`, i.e. the still-empty table. -/
def get_exchange_rates (st : Session) (f : FetchResult) : RatesCall :=
  if st.exchange_rates.isEmpty then
    match f with
    | .raises => ⟨fallbackRates, st, true⟩
    | .status code body =>
      if code = 200 then
        match body with
        | none => ⟨fallbackRates, st, true⟩
        | some rates =>
          let t := setRate rates "USD" 1
          ⟨t, ⟨t⟩, true⟩
      else ⟨st.exchange_rates, st, true⟩
  else ⟨st.exchange_rates, st, false⟩

/-! ### Number parsing and formatting -/

/-- Value of a digit string. -/
def digitsToNat (l : List Char) : Nat :=
  l.foldl (fun a c => a * 10 + (c.toNat - '0'.toNat)) 0

/-- `str(n)` of a natural number as characters. -/
def natDigits (n : Nat) : List Char := (toString n).data

/-- Insert a comma after every three characters of a reversed digit string. -/
def commaRev : List Char → List Char
  | a :: b :: c :: d :: r => a :: b :: c :: ',' :: commaRev (d :: r)
  | l => l

/-- Thousands-separated rendering of a natural number. -/
def fmtGrouped (n : Nat) : String :=
  ⟨(commaRev (natDigits n).reverse).reverse⟩

/-- Round to the nearest integer, ties to even — the rounding `float.__format__`
applies. -/
def roundHalfEven (q : ℚ) : ℤ :=
  let n := q.floor
  let r := q - n
  if r < 1/2 then n
  else if 1/2 < r then n + 1
  else if n % 2 = 0 then n else n + 1

/-- Python `f"{x:,.2f}"` for the nonnegative amounts this code produces:
two decimal places and thousands separators. -/
def fmt2 (q : ℚ) : String :=
  let cents := (roundHalfEven (q * 100)).toNat
  fmtGrouped (cents / 100) ++ "." ++
    (if cents % 100 < 10 then "0" else "") ++ toString (cents % 100)

/-- `float(s)` on a comma-stripped match of the numeric patterns: digits with
an optional fractional part.  `none` models the `ValueError` that
`float("")` raises when the match contained no digits. -/
def parseNumber (l : List Char) : Option ℚ :=
  let s := l.filter (fun c => c ≠ ',')
  let ip := spanP Char.isDigit s
  match ip.2 with
  | [] => if ip.1.isEmpty then none else some (digitsToNat ip.1)
  | '.' :: fr =>
    let fp := spanP Char.isDigit fr
    if fp.2.isEmpty && (!ip.1.isEmpty || !fp.1.isEmpty) then
      some ((digitsToNat ip.1 : ℚ) + (digitsToNat fp.1 : ℚ) / (10 : ℚ) ^ fp.1.length)
    else none
  | _ => none

/-- Leftmost match of `re.search(r'[\d,]+(?:\.\d+)?', s)`: the first maximal
run of digits and commas, extended by a decimal part when a dot followed by at
least one digit comes next.  Returns the matched text. -/
def findNumGroup : List Char → Option (List Char)
  | [] => none
  | c :: t =>
    if c.isDigit || c = ',' then
      let run := spanP (fun d => d.isDigit || d = ',') (c :: t)
      let dec : List Char :=
        match run.2 with
        | '.' :: d :: r2 =>
          if d.isDigit then '.' :: (spanP Char.isDigit (d :: r2)).1 else []
        | _ => []
      some (run.1 ++ dec)
    else findNumGroup t

/-- The multiplication `amount * rates[target_currency]` of `convert_price`
(the source assumes the amount is in USD). -/
def convertedAmount (rates : RateTable) (amount : ℚ) (target : String) : Option ℚ :=
  (lookupRate rates target).map (fun r => amount * r)

/-- `currency_symbols.get(target, target)` of `convert_price`. -/
def currencySymbol (target : String) : String :=
  match (([("INR", "₹"), ("EUR", "€"), ("GBP", "£"), ("JPY", "¥"),
           ("AUD", "A$"), ("CAD", "C$")] : List (String × String)).find?
          (fun p => p.1 == target)).map Prod.snd with
  | some s => s
  | none => target

/-- `convert_price` from src/streamlit_app.py.  The rate table argument is the
table `get_exchange_rates()` returns in the session being modelled. -/
def convert_price (rates : RateTable) (amount_str : String) (target_currency : String) : String :=
  match findNumGroup amount_str.data with
  | none => amount_str
  | some g =>
    match parseNumber g with
    | none => amount_str
    | some amount =>
      if target_currency = "USD" then "$" ++ fmt2 amount
      else
        match convertedAmount rates amount target_currency with
        | some converted => currencySymbol target_currency ++ fmt2 converted
        | none => amount_str

/-! ## Price Annotator (`extract_price_ranges` in src/streamlit_app.py) -/

/-- `(?:,\d{3})*`: greedily consume comma-plus-three-digit groups. -/
def commaGroups : List Char → List Char × List Char
  | ',' :: a :: b :: c :: r =>
    if a.isDigit && b.isDigit && c.isDigit then
      let s := commaGroups r
      (',' :: a :: b :: c :: s.1, s.2)
    else ([], ',' :: a :: b :: c :: r)
  | l => ([], l)

/-- `(?:\.\d{2})?`: a dot with exactly two digits, if present. -/
def dec2 : List Char → List Char × List Char
  | '.' :: a :: b :: r =>
    if a.isDigit && b.isDigit then (['.', a, b], r) else ([], '.' :: a :: b :: r)
  | l => ([], l)

/-- `\d+(?:,\d{3})*(?:\.\d{2})?` — the amount group of the price patterns,
matched at the position right after a `$`.  Returns the group text and the
rest of the input, or `none` when no digits follow. -/
def matchAmount (l : List Char) : Option (List Char × List Char) :=
  let ds := spanP Char.isDigit l
  if ds.1.isEmpty then none
  else
    let gs := commaGroups ds.2
    let dc := dec2 gs.2
    some (ds.1 ++ gs.1 ++ dc.1, dc.2)

/-- The range pattern after its leading `\$`:
`(\d+(?:,\d{3})*(?:\.\d{2})?)\s*[-–]\s*\$?(\d+(?:,\d{3})*(?:\.\d{2})?)`.
Returns the two amount groups, the matched text after the `$`, and the rest. -/
def matchRange (l : List Char) : Option (List Char × List Char × List Char × List Char) :=
  match matchAmount l with
  | none => none
  | some (g1, r1) =>
    let ws1 := spanP isSpaceChar r1
    match ws1.2 with
    | [] => none
    | d :: r3 =>
      if d = '-' || d = '–' then
        let ws2 := spanP isSpaceChar r3
        let dopt : List Char × List Char :=
          match ws2.2 with
          | '$' :: r4 => (['$'], r4)
          | l4 => ([], l4)
        match matchAmount dopt.2 with
        | some (g2, r6) =>
          some (g1, g2, g1 ++ ws1.1 ++ [d] ++ ws2.1 ++ dopt.1 ++ g2, r6)
        | none => none
      else none

/-- Replacement of `replace_price_range`: the original match followed by both
converted bounds in parentheses, wrapped in the highlight span. -/
def rangeRepl (rates : RateTable) (currency : String)
    (g1 g2 m : List Char) : List Char :=
  ("<span class=\"stunning-price-highlight\">$" ++ String.mk m ++ " (" ++
    convert_price rates ⟨g1⟩ currency ++ " - " ++
    convert_price rates ⟨g2⟩ currency ++ ")</span>").data

/-- Replacement of `replace_single_price`. -/
def singleRepl (rates : RateTable) (currency : String) (g : List Char) : List Char :=
  ("<span class=\"stunning-price-highlight\">$" ++ String.mk g ++ " (" ++
    convert_price rates ⟨g⟩ currency ++ ")</span>").data

/-- Replacement of `highlight_price` (the USD branch). -/
def highlightRepl (g : List Char) : List Char :=
  ("<span class=\"stunning-price-highlight\">$" ++ String.mk g ++ "</span>").data

/-- `re.sub(range_pattern, replace_price_range, text)`: scan left to right,
replacing each match and continuing after it.  The fuel argument bounds the
number of scan steps; every step consumes at least one character, so an
initial fuel of `l.length` never runs out. -/
def subRangeAux (rates : RateTable) (currency : String) : Nat → List Char → List Char
  | 0, l => l
  | _ + 1, [] => []
  | fuel + 1, c :: t =>
    if c = '$' then
      match matchRange t with
      | some (g1, g2, m, rest) =>
        rangeRepl rates currency g1 g2 m ++ subRangeAux rates currency fuel rest
      | none => c :: subRangeAux rates currency fuel t
    else c :: subRangeAux rates currency fuel t

/-- `re.sub(price_pattern, replace_single_price, text)`. -/
def subSingleAux (rates : RateTable) (currency : String) : Nat → List Char → List Char
  | 0, l => l
  | _ + 1, [] => []
  | fuel + 1, c :: t =>
    if c = '$' then
      match matchAmount t with
      | some (g, rest) =>
        singleRepl rates currency g ++ subSingleAux rates currency fuel rest
      | none => c :: subSingleAux rates currency fuel t
    else c :: subSingleAux rates currency fuel t

/-- `re.sub(price_pattern, highlight_price, text)` of the USD branch. -/
def subHighlightAux : Nat → List Char → List Char
  | 0, l => l
  | _ + 1, [] => []
  | fuel + 1, c :: t =>
    if c = '$' then
      match matchAmount t with
      | some (g, rest) => highlightRepl g ++ subHighlightAux fuel rest
      | none => c :: subHighlightAux fuel t
    else c :: subHighlightAux fuel t

/-- `extract_price_ranges` from src/streamlit_app.py.  `currency` is
`st.session_state.currency`; `rates` is the table `get_exchange_rates()`
returns in the session being modelled.  For USD every price is highlighted
without conversion; otherwise the range substitution runs first and the
single-price substitution runs on its output. -/
def extract_price_ranges (rates : RateTable) (currency : String) (text : String) : String :=
  if currency = "USD" then
    ⟨subHighlightAux text.data.length text.data⟩
  else
    let t1 := subRangeAux rates currency text.data.length text.data
    ⟨subSingleAux rates currency t1.length t1⟩

/-! ## Content Normalizer (`clean_content_from_markdown` in
src/streamlit_app.py) -/

/-- Consume up to `k` leading `#` characters (`#{1,6}` is greedy). -/
def eatHashes : Nat → List Char → List Char
  | 0, l => l
  | k + 1, l =>
    match l with
    | '#' :: t => eatHashes k t
    | _ => l

/-- `re.sub(r'^#{1,6}\s*', '', content, flags=re.MULTILINE)`.  `lineStart`
tracks whether the current position is the string start or preceded by a
newline; `\s*` is greedy and also consumes newlines. -/
def subHeadersAux : Nat → Bool → List Char → List Char
  | 0, _, l => l
  | _ + 1, _, [] => []
  | fuel + 1, lineStart, c :: t =>
    if lineStart && c = '#' then
      let r1 := eatHashes 6 (c :: t)
      let ws := spanP isSpaceChar r1
      subHeadersAux fuel (ws.1.getLast? == some '\n') ws.2
    else c :: subHeadersAux fuel (c = '\n') t

/-- Lazy search for the two-character closing delimiter `d d`, with `.`
not crossing newlines: the text before the first closing pair, and the rest. -/
def findClose2 (d : Char) : List Char → Option (List Char × List Char)
  | c1 :: c2 :: t =>
    if c1 = d && c2 = d then some ([], t)
    else if c1 = '\n' then none
    else (findClose2 d (c2 :: t)).map (fun p => (c1 :: p.1, p.2))
  | _ => none

/-- Lazy search for a one-character closing delimiter. -/
def findClose1 (d : Char) : List Char → Option (List Char × List Char)
  | c :: t =>
    if c = d then some ([], t)
    else if c = '\n' then none
    else (findClose1 d t).map (fun p => (c :: p.1, p.2))
  | [] => none

/-- `re.sub(r'\*\*(.*?)\*\*', r'\1', content)` (and the `__` variant):
replace every doubly-delimited stretch by its body. -/
def subDelim2Aux (d : Char) : Nat → List Char → List Char
  | 0, l => l
  | _ + 1, [] => []
  | fuel + 1, c :: t =>
    match t with
    | c2 :: t2 =>
      if c = d && c2 = d then
        match findClose2 d t2 with
        | some (inner, rest) => inner ++ subDelim2Aux d fuel rest
        | none => c :: subDelim2Aux d fuel t
      else c :: subDelim2Aux d fuel t
    | [] => [c]

/-- `re.sub(r'\*(.*?)\*', r'\1', content)` (and the `_` variant). -/
def subDelim1Aux (d : Char) : Nat → List Char → List Char
  | 0, l => l
  | _ + 1, [] => []
  | fuel + 1, c :: t =>
    if c = d then
      match findClose1 d t with
      | some (inner, rest) => inner ++ subDelim1Aux d fuel rest
      | none => c :: subDelim1Aux d fuel t
    else c :: subDelim1Aux d fuel t

/-- `re.sub(r'^[-\*]\s*', '', content, flags=re.MULTILINE)`: one list-marker
character at a line start, then greedy whitespace. -/
def subListAux : Nat → Bool → List Char → List Char
  | 0, _, l => l
  | _ + 1, _, [] => []
  | fuel + 1, lineStart, c :: t =>
    if lineStart && (c = '-' || c = '*') then
      let ws := spanP isSpaceChar t
      subListAux fuel (ws.1.getLast? == some '\n') ws.2
    else c :: subListAux fuel (c = '\n') t

/-- `re.sub(r'^-+$', '', content, flags=re.MULTILINE)`: a line consisting only
of dashes; the `$` position (newline or string end) is not consumed. -/
def subDashAux : Nat → Bool → List Char → List Char
  | 0, _, l => l
  | _ + 1, _, [] => []
  | fuel + 1, lineStart, c :: t =>
    if lineStart && c = '-' then
      let ds := spanP (fun x => x = '-') (c :: t)
      match ds.2 with
      | [] => subDashAux fuel false []
      | '\n' :: r => subDashAux fuel false ('\n' :: r)
      | _ => c :: subDashAux fuel (c = '\n') t
    else c :: subDashAux fuel (c = '\n') t

/-- Greedy `\s*` with backtracking into the continuation `k`. -/
def wsStar (k : List Char → Option (List Char)) : List Char → Option (List Char)
  | [] => k []
  | c :: t =>
    if isSpaceChar c then
      match wsStar k t with
      | some r => some r
      | none => k (c :: t)
    else k (c :: t)

/-- Final `\n+` of the collapse pattern: greedy newline run. -/
def nlRun : List Char → Option (List Char)
  | '\n' :: t => some (t.dropWhile (fun c => c == '\n'))
  | _ => none

/-- One attempted match of `\n\s*\n\s*\n+` at the current position. -/
def collapseMatch : List Char → Option (List Char)
  | '\n' :: t =>
    wsStar (fun l2 =>
      match l2 with
      | '\n' :: t2 => wsStar nlRun t2
      | _ => none) t
  | _ => none

/-- `re.sub(r'\n\s*\n\s*\n+', '\n\n', content)`. -/
def subCollapseAux : Nat → List Char → List Char
  | 0, l => l
  | _ + 1, [] => []
  | fuel + 1, c :: t =>
    if c = '\n' then
      match collapseMatch (c :: t) with
      | some rest => '\n' :: '\n' :: subCollapseAux fuel rest
      | none => c :: subCollapseAux fuel t
    else c :: subCollapseAux fuel t

/-- Python `str.strip()`. -/
def pyStrip (l : List Char) : List Char :=
  ((l.dropWhile isSpaceChar).reverse.dropWhile isSpaceChar).reverse

/-- `clean_content_from_markdown` from src/streamlit_app.py: the eight regex
substitutions in source order, then `strip()`. -/
def clean_content_from_markdown (content : String) : String :=
  let l0 := content.data
  let l1 := subHeadersAux l0.length true l0
  let l2 := subDelim2Aux '*' l1.length l1
  let l3 := subDelim2Aux '_' l2.length l2
  let l4 := subDelim1Aux '*' l3.length l3
  let l5 := subDelim1Aux '_' l4.length l4
  let l6 := subListAux l5.length true l5
  let l7 := subDashAux l6.length true l6
  let l8 := subCollapseAux l7.length l7
  ⟨pyStrip l8⟩

/-! ## Request Pipeline retry policy

The retry/backoff variant of the agent call described by the spec is not
among the provided front-end sources (`make_api_request` in
src/streamlit_app.py performs a single attempt), so it is modelled from the
spec. -/

/-- Outcome of one attempt at the agent endpoint: a 200 with an answer, a
non-200 status code, or a transport-level connection or timeout error. -/
inductive AgentOutcome where
  | ok (answer : String)
  | status (code : Nat)
  | connError
  | timeoutError
deriving DecidableEq

/-- Error taxonomy of the pipeline. -/
inductive ErrorKind where
  | rate_limit
  | server_error
  | connection
  | timeout
  | http_error
  | unexpected
deriving DecidableEq

/-- `AgentResponse`: exactly one of an answer or a tagged error. -/
inductive AgentResponse where
  | success (answer : String)
  | failure (kind : ErrorKind)
deriving DecidableEq

/-- Trace of one pipeline execution: attempts made, the sleep durations (in
seconds) performed between attempts, and the final response. -/
structure RetryTrace where
  attempts : Nat
  waits : List Nat
  result : AgentResponse
deriving DecidableEq

/-- Modelled from the spec: the bounded retry loop of the Request Pipeline
agent call (spec sections 5 and 7), absent from the provided sources.  Up to
3 attempts; attempt `n` observes `script n`.  HTTP 429 waits `10 * n` seconds
before the next attempt unless it was the final one; HTTP 500 and
connection/timeout errors wait a fixed 5 seconds unless final; any other
non-200 status is not retried. -/
def retryGo (script : Nat → AgentOutcome) : Nat → Nat → RetryTrace
  | attempt, 0 => ⟨attempt - 1, [], .failure .unexpected⟩
  | attempt, remaining + 1 =>
    match script attempt with
    | .ok a => ⟨attempt, [], .success a⟩
    | .status code =>
      if code = 429 then
        if remaining = 0 then ⟨attempt, [], .failure .rate_limit⟩
        else
          let t := retryGo script (attempt + 1) remaining
          ⟨t.attempts, 10 * attempt :: t.waits, t.result⟩
      else if code = 500 then
        if remaining = 0 then ⟨attempt, [], .failure .server_error⟩
        else
          let t := retryGo script (attempt + 1) remaining
          ⟨t.attempts, 5 :: t.waits, t.result⟩
      else ⟨attempt, [], .failure .http_error⟩
    | .connError =>
      if remaining = 0 then ⟨attempt, [], .failure .connection⟩
      else
        let t := retryGo script (attempt + 1) remaining
        ⟨t.attempts, 5 :: t.waits, t.result⟩
    | .timeoutError =>
      if remaining = 0 then ⟨attempt, [], .failure .timeout⟩
      else
        let t := retryGo script (attempt + 1) remaining
        ⟨t.attempts, 5 :: t.waits, t.result⟩

/-- Modelled from the spec: one agent call under the retry policy, with a
fresh budget of 3 attempts. -/
def executeAgentCall (script : Nat → AgentOutcome) : RetryTrace :=
  retryGo script 1 3

/-- No `$` immediately followed by a digit occurs in the text — the shape all
three price substitution patterns require at a match start. -/
def noDollarDigit : List Char → Bool
  | [] => true
  | c :: t =>
    (if c = '$' then
      match t with
      | d :: _ => !d.isDigit
      | [] => true
     else true) && noDollarDigit t

/-! ## Helper lemmas -/

theorem string_mk_data (s : String) : String.mk s.data = s := by
  rcases s with ⟨d⟩
  rfl

theorem spanP_neg {p : Char → Bool} {c : Char} {t : List Char} (h : p c = false) :
    spanP p (c :: t) = ([], c :: t) := by
  simp [spanP, h]

theorem matchAmount_none {l : List Char}
    (h : ∀ d, l.head? = some d → d.isDigit = false) : matchAmount l = none := by
  cases l with
  | nil => rfl
  | cons c t =>
    have hc : c.isDigit = false := h c rfl
    simp [matchAmount, spanP_neg hc]

theorem matchRange_none {l : List Char}
    (h : ∀ d, l.head? = some d → d.isDigit = false) : matchRange l = none := by
  simp [matchRange, matchAmount_none h]

theorem noDollarDigit_cons {c : Char} {t : List Char}
    (h : noDollarDigit (c :: t) = true) : noDollarDigit t = true := by
  simp only [noDollarDigit, Bool.and_eq_true] at h
  exact h.2

theorem noDollarDigit_dollar {t : List Char}
    (h : noDollarDigit ('$' :: t) = true) :
    ∀ d, t.head? = some d → d.isDigit = false := by
  intro d hd
  cases t with
  | nil => cases hd
  | cons x r =>
    have hx : x = d := by
      simpa using hd
    subst hx
    simp only [noDollarDigit, Bool.and_eq_true, if_pos rfl] at h
    simpa using h.1

theorem subSingleAux_id (rates : RateTable) (cur : String) :
    ∀ fuel l, l.length ≤ fuel → noDollarDigit l = true →
      subSingleAux rates cur fuel l = l := by
  intro fuel
  induction fuel with
  | zero =>
    intro l _ _
    rfl
  | succ n ih =>
    intro l hl hnd
    cases l with
    | nil => rfl
    | cons c t =>
      have ht : t.length ≤ n := by
        simpa using hl
      have htl := ih t ht (noDollarDigit_cons hnd)
      by_cases hc : c = '$'
      · subst hc
        have hnone : matchAmount t = none := matchAmount_none (noDollarDigit_dollar hnd)
        simp [subSingleAux, hnone, htl]
      · simp [subSingleAux, hc, htl]

theorem subHighlightAux_id :
    ∀ fuel l, l.length ≤ fuel → noDollarDigit l = true →
      subHighlightAux fuel l = l := by
  intro fuel
  induction fuel with
  | zero =>
    intro l _ _
    rfl
  | succ n ih =>
    intro l hl hnd
    cases l with
    | nil => rfl
    | cons c t =>
      have ht : t.length ≤ n := by
        simpa using hl
      have htl := ih t ht (noDollarDigit_cons hnd)
      by_cases hc : c = '$'
      · subst hc
        have hnone : matchAmount t = none := matchAmount_none (noDollarDigit_dollar hnd)
        simp [subHighlightAux, hnone, htl]
      · simp [subHighlightAux, hc, htl]

theorem subRangeAux_id (rates : RateTable) (cur : String) :
    ∀ fuel l, l.length ≤ fuel → noDollarDigit l = true →
      subRangeAux rates cur fuel l = l := by
  intro fuel
  induction fuel with
  | zero =>
    intro l _ _
    rfl
  | succ n ih =>
    intro l hl hnd
    cases l with
    | nil => rfl
    | cons c t =>
      have ht : t.length ≤ n := by
        simpa using hl
      have htl := ih t ht (noDollarDigit_cons hnd)
      by_cases hc : c = '$'
      · subst hc
        have hnone : matchRange t = none := matchRange_none (noDollarDigit_dollar hnd)
        simp [subRangeAux, hnone, htl]
      · simp [subRangeAux, hc, htl]

theorem spanP_fst_mem {p : Char → Bool} :
    ∀ {l : List Char} {c : Char}, c ∈ (spanP p l).1 → p c = true ∧ c ∈ l := by
  intro l
  induction l with
  | nil =>
    intro c hc
    simp [spanP] at hc
  | cons a t ih =>
    intro c hc
    by_cases ha : p a = true
    · simp only [spanP, ha, if_pos] at hc
      rcases List.mem_cons.mp hc with rfl | hmem
      · exact ⟨ha, List.mem_cons_self _ _⟩
      · obtain ⟨h1, h2⟩ := ih hmem
        exact ⟨h1, List.mem_cons_of_mem _ h2⟩
    · rw [spanP_neg (Bool.eq_false_iff.mpr ha)] at hc
      simp at hc

theorem spanP_snd_mem {p : Char → Bool} :
    ∀ {l : List Char} {c : Char}, c ∈ (spanP p l).2 → c ∈ l := by
  intro l
  induction l with
  | nil =>
    intro c hc
    simp [spanP] at hc
  | cons a t ih =>
    intro c hc
    by_cases ha : p a = true
    · simp only [spanP, ha, if_pos] at hc
      exact List.mem_cons_of_mem _ (ih hc)
    · rw [spanP_neg (Bool.eq_false_iff.mpr ha)] at hc
      exact hc

theorem findNumGroup_nondigit :
    ∀ {l : List Char}, (∀ c ∈ l, c.isDigit = false) →
      findNumGroup l = none ∨
        ∃ g, findNumGroup l = some g ∧ ∀ c ∈ g, c = ',' := by
  intro l
  induction l with
  | nil =>
    intro _
    left
    rfl
  | cons c t ih =>
    intro h
    have hc : c.isDigit = false := h c (List.mem_cons_self _ _)
    by_cases hcm : c = ','
    · right
      simp only [findNumGroup]
      rw [if_pos (by simp [hcm] : (c.isDigit || decide (c = ',')) = true)]
      refine ⟨_, rfl, ?_⟩
      intro x hx
      rw [List.mem_append] at hx
      rcases hx with hx | hx
      · obtain ⟨hp, hmem⟩ := spanP_fst_mem hx
        have hxd : x.isDigit = false := h x hmem
        simp [hxd] at hp
        exact hp
      · exfalso
        revert hx
        split
        · rename_i d r2 heq
          intro hx
          have hd : d.isDigit = false := by
            apply h
            apply spanP_snd_mem (p := fun d => d.isDigit || d = ',')
            rw [heq]
            simp
          rw [if_neg (by simp [hd])] at hx
          simp at hx
        · intro hx
          simp at hx
    · have : findNumGroup (c :: t) = findNumGroup t := by
        simp [findNumGroup, hc, hcm]
      rw [this]
      exact ih (fun x hx => h x (List.mem_cons_of_mem _ hx))

theorem parseNumber_commas {g : List Char} (h : ∀ c ∈ g, c = ',') :
    parseNumber g = none := by
  have hfilter : g.filter (fun c => c ≠ ',') = [] := by
    induction g with
    | nil => rfl
    | cons c t ih =>
      have hc : c = ',' := h c (List.mem_cons_self _ _)
      subst hc
      simpa using ih (fun x hx => h x (List.mem_cons_of_mem _ hx))
  simp only [parseNumber]
  rw [hfilter]
  rfl

theorem convert_price_nodigit (rates : RateTable) (target : String) {s : String}
    (h : ∀ c ∈ s.data, c.isDigit = false) :
    convert_price rates s target = s := by
  rcases findNumGroup_nondigit h with hnone | ⟨g, hg, hcomma⟩
  · simp [convert_price, hnone]
  · simp [convert_price, hg, parseNumber_commas hcomma]

theorem retryGo_attempts_le (script : Nat → AgentOutcome) :
    ∀ remaining attempt, (retryGo script attempt remaining).attempts ≤ attempt + remaining - 1 := by
  intro remaining
  induction remaining with
  | zero =>
    intro attempt
    show attempt - 1 ≤ attempt + 0 - 1
    omega
  | succ r ih =>
    intro attempt
    have h1 : (retryGo script (attempt + 1) r).attempts ≤ attempt + r := by
      have := ih (attempt + 1)
      omega
    rcases hscr : script attempt with a | code | _ | _
    · simp only [retryGo, hscr]
      show attempt ≤ attempt + (r + 1) - 1
      omega
    · simp only [retryGo, hscr]
      split_ifs <;>
        first
          | (show attempt ≤ attempt + (r + 1) - 1
             omega)
          | (show (retryGo script (attempt + 1) r).attempts ≤ attempt + (r + 1) - 1
             omega)
    · simp only [retryGo, hscr]
      split_ifs <;>
        first
          | (show attempt ≤ attempt + (r + 1) - 1
             omega)
          | (show (retryGo script (attempt + 1) r).attempts ≤ attempt + (r + 1) - 1
             omega)
    · simp only [retryGo, hscr]
      split_ifs <;>
        first
          | (show attempt ≤ attempt + (r + 1) - 1
             omega)
          | (show (retryGo script (attempt + 1) r).attempts ≤ attempt + (r + 1) - 1
             omega)

theorem setRate_ne_nil (t : RateTable) (code : String) (v : ℚ) :
    setRate t code v ≠ [] := by
  intro h
  unfold setRate at h
  split at h
  · rename_i hany
    rw [List.map_eq_nil_iff] at h
    subst h
    simp at hany
  · exact absurd h (by simp)

theorem determine_query_type_label (s : String) :
    determine_query_type s = categoryLabel (classify s) := by
  simp only [determine_query_type, classify]
  split_ifs <;> rfl

/-! ## Claim theorems -/

attribute [local semireducible] Rat.mul Rat.add Rat.sub Rat.inv Rat.ofScientific

set_option maxRecDepth 40000

/-- C1: the agent call runs under a bounded retry policy of at most 3
attempts; three consecutive HTTP 500 responses give exactly 3 attempts, two
5-second waits and a `server_error` response; a 429 on attempt 1 followed by
a 200 gives exactly one 10-second wait and a success; connection errors
behave like 500, and the wait is skipped on the final attempt. -/
theorem C1_retry_policy :
    (∀ script : Nat → AgentOutcome, (executeAgentCall script).attempts ≤ 3) ∧
    executeAgentCall (fun _ => .status 500) =
      ⟨3, [5, 5], .failure .server_error⟩ ∧
    executeAgentCall (fun n => if n = 1 then .status 429 else .ok "plan") =
      ⟨2, [10], .success "plan"⟩ ∧
    executeAgentCall (fun _ => .connError) =
      ⟨3, [5, 5], .failure .connection⟩ := by
  refine ⟨?_, by decide, by decide, by decide⟩
  intro script
  have h := retryGo_attempts_le script 3 1
  unfold executeAgentCall
  omega

/-- C2: the classifier is total over the five categories, deterministic (a
pure function), scans the lower-cased text against the four keyword sets in
the priority order hotels, cost, weather, alternatives with first match
winning and `complete` as default; the mixed hotel/cost example classifies
as hotels. -/
theorem C2_classifier_priority (s : String) :
    (classify s = .hotels ∨ classify s = .cost ∨ classify s = .weather ∨
      classify s = .alternatives ∨ classify s = .complete) ∧
    (containsAnyKeyword (pyLower s.data) hotelKeywords = true →
      classify s = .hotels) ∧
    (containsAnyKeyword (pyLower s.data) hotelKeywords = false →
      containsAnyKeyword (pyLower s.data) costKeywords = true →
      classify s = .cost) ∧
    (containsAnyKeyword (pyLower s.data) hotelKeywords = false →
      containsAnyKeyword (pyLower s.data) costKeywords = false →
      containsAnyKeyword (pyLower s.data) weatherKeywords = true →
      classify s = .weather) ∧
    (containsAnyKeyword (pyLower s.data) hotelKeywords = false →
      containsAnyKeyword (pyLower s.data) costKeywords = false →
      containsAnyKeyword (pyLower s.data) weatherKeywords = false →
      containsAnyKeyword (pyLower s.data) alternativeKeywords = true →
      classify s = .alternatives) ∧
    (containsAnyKeyword (pyLower s.data) hotelKeywords = false →
      containsAnyKeyword (pyLower s.data) costKeywords = false →
      containsAnyKeyword (pyLower s.data) weatherKeywords = false →
      containsAnyKeyword (pyLower s.data) alternativeKeywords = false →
      classify s = .complete) ∧
    determine_query_type s = categoryLabel (classify s) ∧
    classify "What\x27s the hotel cost in Paris?" = .hotels := by
  refine ⟨?_, ?_, ?_, ?_, ?_, ?_, determine_query_type_label s, by decide⟩
  · cases h : classify s <;> simp
  · intro h1
    simp [classify, h1]
  · intro h1 h2
    simp [classify, h1, h2]
  · intro h1 h2 h3
    simp [classify, h1, h2, h3]
  · intro h1 h2 h3 h4
    simp [classify, h1, h2, h3, h4]
  · intro h1 h2 h3 h4
    simp [classify, h1, h2, h3, h4]

/-- C2 witness: the priority clauses of `C2_classifier_priority` applied at
concrete questions. -/
theorem C2_classifier_priority_witness :
    classify "What\x27s the hotel cost in Paris?" = Category.hotels ∧
    classify "total trip cost" = Category.cost ∧
    classify "how is the climate" = Category.weather ∧
    classify "maybe another option" = Category.alternatives ∧
    classify "plan a trip to Goa" = Category.complete :=
  ⟨(C2_classifier_priority _).2.1 (by decide),
   (C2_classifier_priority _).2.2.1 (by decide) (by decide),
   (C2_classifier_priority _).2.2.2.1 (by decide) (by decide) (by decide),
   (C2_classifier_priority _).2.2.2.2.1 (by decide) (by decide) (by decide)
     (by decide),
   (C2_classifier_priority _).2.2.2.2.2.1 (by decide) (by decide) (by decide)
     (by decide)⟩

/-- C3: evaluating the annotator at `"$100-$200"` with target INR shows the
double conversion: the range pass runs first, but its replacement keeps the
original `$` amounts, which the single-amount pass then re-matches, so each
bound's converted value appears twice (in nested highlight spans). -/
theorem C3_range_double_conversion :
    extract_price_ranges fallbackRates "INR" "$100-$200" =
      "<span class=\"stunning-price-highlight\"><span class=\"stunning-price-highlight\">$100 (₹8,300.00)</span>-<span class=\"stunning-price-highlight\">$200 (₹16,600.00)</span> (₹8,300.00 - ₹16,600.00)</span>" ∧
    countSub "₹8,300.00".data
      (extract_price_ranges fallbackRates "INR" "$100-$200").data = 2 ∧
    countSub "₹16,600.00".data
      (extract_price_ranges fallbackRates "INR" "$100-$200").data = 2 := by
  refine ⟨by decide, by decide, by decide⟩

/-- C4 counterexample: a non-200 status is not an exception, so the function
returns the still-empty cached table rather than the fallback table. -/
theorem C4_non200_counterexample :
    (get_exchange_rates ⟨[]⟩ (.status 500 none)).table ≠ fallbackRates := by
  decide

/-- C4 (amended): the fallback table is substituted on the exception paths —
a raising fetch or a malformed body — while a non-200 status returns the
(empty) cached table instead. -/
theorem C4_failure_fallback :
    (get_exchange_rates ⟨[]⟩ .raises).table = fallbackRates ∧
    (get_exchange_rates ⟨[]⟩ (.status 200 none)).table = fallbackRates ∧
    ∀ code body, code ≠ 200 →
      (get_exchange_rates ⟨[]⟩ (.status code body)).table = [] := by
  refine ⟨by decide, by decide, ?_⟩
  intro code body h
  simp [get_exchange_rates, h]

/-- C4 witness: the non-200 clause of `C4_failure_fallback` at status 404. -/
theorem C4_failure_fallback_witness :
    (get_exchange_rates ⟨[]⟩ (.status 404 none)).table = [] :=
  C4_failure_fallback.2.2 404 none (by decide)

/-- C5 counterexample: the first call substitutes the fallback table but does
not cache it, so a second call in the same session contacts the remote
source again. -/
theorem C5_refetch_counterexample :
    (get_exchange_rates ⟨[]⟩ .raises).table = fallbackRates ∧
    (get_exchange_rates ⟨[]⟩ .raises).state = ⟨[]⟩ ∧
    (get_exchange_rates (get_exchange_rates ⟨[]⟩ .raises).state .raises).fetched
      = true := by
  decide

/-- C5 (amended): only a successful fetch populates the cache — after a 200
response every later call returns the cached table without contacting the
remote source; after a failed first call nothing is cached and the next call
fetches again. -/
theorem C5_cache_lifecycle :
    (∀ (tbl : RateTable) (f2 : FetchResult),
      (get_exchange_rates
        (get_exchange_rates ⟨[]⟩ (.status 200 (some tbl))).state f2).fetched
          = false ∧
      (get_exchange_rates
        (get_exchange_rates ⟨[]⟩ (.status 200 (some tbl))).state f2).table =
        (get_exchange_rates ⟨[]⟩ (.status 200 (some tbl))).state.exchange_rates) ∧
    ∀ f2 : FetchResult,
      (get_exchange_rates (get_exchange_rates ⟨[]⟩ .raises).state f2).fetched
        = true := by
  constructor
  · intro tbl f2
    have hne : setRate tbl "USD" 1 ≠ [] := setRate_ne_nil tbl "USD" 1
    have hstate : (get_exchange_rates ⟨[]⟩ (.status 200 (some tbl))).state =
        ⟨setRate tbl "USD" 1⟩ := by
      simp [get_exchange_rates]
    have hemp : (setRate tbl "USD" 1).isEmpty = false := by
      cases h : setRate tbl "USD" 1
      · exact absurd h hne
      · rfl
    rw [hstate]
    constructor <;> simp [get_exchange_rates, hemp]
  · intro f2
    have hstate : (get_exchange_rates ⟨[]⟩ .raises).state = ⟨[]⟩ := by decide
    rw [hstate]
    cases f2 with
    | raises => decide
    | status code body =>
      by_cases h : code = 200 <;> cases body <;> simp [get_exchange_rates, h]

/-- C6: with the fallback table in effect, converting 100 (USD) to INR
multiplies by the INR rate, giving the value 8300 and the rendered string
`₹8,300.00`. -/
theorem C6_convert_usd_inr :
    convertedAmount fallbackRates 100 "INR" = some 8300 ∧
    convert_price fallbackRates "100" "INR" = "₹8,300.00" := by
  decide

/-- C7 counterexample: the markdown stripper is not idempotent — a second
application of it to its own output on `"--x"` strips further. -/
theorem C7_not_idempotent :
    clean_content_from_markdown (clean_content_from_markdown "--x") ≠
      clean_content_from_markdown "--x" := by
  decide

/-- C7 (amended): removing a leading list marker can expose another marker
that only a second application removes: one application of the stripper maps
`"--x"` to `"-x"` and a second maps that to `"x"`. -/
theorem C7_second_application_strips_more :
    clean_content_from_markdown "--x" = "-x" ∧
    clean_content_from_markdown "-x" = "x" := by
  refine ⟨by decide, by decide⟩

/-- C8 counterexample: the amount syntax takes exactly zero or two decimal
digits, so `$1,234.5` is not matched in full — the match stops at `$1,234`
and `.5` is left outside the annotation. -/
theorem C8_decimal_counterexample :
    matchAmount "1,234.5".data = some ("1,234".data, ".5".data) ∧
    extract_price_ranges fallbackRates "INR" "$1,234.5" =
      "<span class=\"stunning-price-highlight\">$1,234 (₹102,422.00)</span>.5" := by
  refine ⟨by decide, by decide⟩

/-- C8 (amended): amounts admit thousands separators and either zero or
exactly two decimal digits; `$1,234` and `$1,234.56` match in full while
`$1,234.5` matches only as `$1,234`; separators are stripped before the
digits are parsed. -/
theorem C8_amount_syntax :
    extract_price_ranges fallbackRates "INR" "$1,234" =
      "<span class=\"stunning-price-highlight\">$1,234 (₹102,422.00)</span>" ∧
    extract_price_ranges fallbackRates "INR" "$1,234.56" =
      "<span class=\"stunning-price-highlight\">$1,234.56 (₹102,468.48)</span>" ∧
    extract_price_ranges fallbackRates "INR" "$1,234.5" =
      "<span class=\"stunning-price-highlight\">$1,234 (₹102,422.00)</span>.5" ∧
    "1,234.56".data.filter (fun c => c ≠ ',') = "1234.56".data ∧
    parseNumber "1,234.56".data = some (123456 / 100) := by
  refine ⟨by decide, by decide, by decide, by decide, by decide⟩

/-- C9: on text containing no `$` immediately followed by a digit, the price
annotator is the identity for every target currency (both the USD highlight
branch and the convert branch). -/
theorem C9_no_dollar_identity (rates : RateTable) (currency : String)
    (s : String) (h : noDollarDigit s.data = true) :
    extract_price_ranges rates currency s = s := by
  simp only [extract_price_ranges]
  by_cases hc : currency = "USD"
  · rw [if_pos hc, subHighlightAux_id s.data.length s.data le_rfl h]
  · rw [if_neg hc, subRangeAux_id rates currency s.data.length s.data le_rfl h,
      subSingleAux_id rates currency s.data.length s.data le_rfl h]

/-- C9 witness: `C9_no_dollar_identity` at a concrete dollar-free text. -/
theorem C9_no_dollar_identity_witness :
    extract_price_ranges fallbackRates "INR" "Enjoy the lakes and local cafes."
      = "Enjoy the lakes and local cafes." :=
  C9_no_dollar_identity fallbackRates "INR" _ (by decide)

/-- C10 counterexample: on `"a, 100, 200"` the first match of the numeric
pattern is the bare comma, whose parse fails, so the helper returns the
input unchanged instead of converting the first number 100. -/
theorem C10_comma_counterexample :
    convert_price fallbackRates "a, 100, 200" "INR" = "a, 100, 200" ∧
    convert_price fallbackRates "a, 100, 200" "INR" ≠ "₹8,300.00" := by
  refine ⟨by decide, by decide⟩

/-- C10 (amended): the helper converts only the first digit-containing run of
digits and commas; when the first run is a bare comma the parse fails and
the input is returned unchanged, and any input without digits is returned
unchanged rather than failing. -/
theorem C10_first_number :
    convert_price fallbackRates "100 and 200" "INR" = "₹8,300.00" ∧
    convert_price fallbackRates "a, 100" "INR" = "a, 100" ∧
    ∀ (rates : RateTable) (target s : String),
      (∀ c ∈ s.data, c.isDigit = false) → convert_price rates s target = s := by
  refine ⟨by decide, by decide, ?_⟩
  intro rates target s h
  exact convert_price_nodigit rates target h

/-- C10 witness: the no-digit clause of `C10_first_number` at a concrete
string. -/
theorem C10_first_number_witness :
    convert_price fallbackRates "no price here" "INR" = "no price here" :=
  C10_first_number.2.2 fallbackRates "INR" "no price here" (by decide)

end TripPlanner
